import Mathlib

/-!
Shallow embedding of the knee-exercise rep-counting core of `script.js`
(keypoint stabilization, knee-angle computation, exponential smoothing,
and the BENT → EXTENDING → FLEXING rep state machine), together with
theorems settling the specification claims about it.

JavaScript numbers are modelled as real numbers.  JavaScript `null` on a
numeric slot is modelled as `Option ℝ` with `none`; the JS coercions that
the source relies on (`null` coerces to `0` in arithmetic/comparisons,
`x || y` falls back whenever `x` is `null` or `0`) are modelled explicitly
by `jsNum` and `jsOr` below.
-/

noncomputable section

open Classical

/-- Severity level passed to `setAngleFeedback` / `setSpeedFeedback`
(the CSS classes "ok", "warn", "bad" in `script.js`). -/
inductive Tier where
  | ok
  | warn
  | bad
deriving DecidableEq

/-- A feedback event: the message text and its severity level. -/
structure Feedback where
  text : String
  level : Tier
deriving DecidableEq

/-- One pose-estimator keypoint `{name, x, y, score}` (`script.js` consumes
these from the pose model each frame). -/
structure Keypoint where
  name : String
  x : ℝ
  y : ℝ
  score : ℝ

/-- A single-person pose: the list of named keypoints of one frame. -/
structure Pose where
  keypoints : List Keypoint

/-- The `{x, y, score}` record stored into `lastGood[name]`
(`script.js` line 101); downstream geometry reads only `x` and `y`. -/
structure StoredKP where
  x : ℝ
  y : ℝ
  score : ℝ

/-- The three landmark names the stabilizer is called with
(`script.js` lines 164-166). -/
inductive Landmark where
  | right_hip
  | right_knee
  | right_ankle
deriving DecidableEq

/-- The JS string name of a tracked landmark. -/
def Landmark.jsName : Landmark → String
  | .right_hip => "right_hip"
  | .right_knee => "right_knee"
  | .right_ankle => "right_ankle"

/-- The module-level `lastGood` object (`script.js` lines 17-22): one slot
per tracked landmark plus a single shared `timestamp` field. -/
structure LastGood where
  right_hip : Option StoredKP
  right_knee : Option StoredKP
  right_ankle : Option StoredKP
  timestamp : ℝ

/-- Dynamic read `lastGood[name]`. -/
def LastGood.get (g : LastGood) : Landmark → Option StoredKP
  | .right_hip => g.right_hip
  | .right_knee => g.right_knee
  | .right_ankle => g.right_ankle

/-- Dynamic write `lastGood[name] = v`. -/
def LastGood.set (g : LastGood) : Landmark → StoredKP → LastGood
  | .right_hip, v => { g with right_hip := some v }
  | .right_knee, v => { g with right_knee := some v }
  | .right_ankle, v => { g with right_ankle := some v }

/-- `MAX_GAP_SEC` (`script.js` line 23). -/
def MAX_GAP_SEC : ℝ := 0.3

/-- `BENT_THRESHOLD` (`script.js` line 26). -/
def BENT_THRESHOLD : ℝ := 110

/-- `STRAIGHT_TARGET` (`script.js` line 27). -/
def STRAIGHT_TARGET : ℝ := 165

/-- `ANGLE_OK_MARGIN` (`script.js` line 28). -/
def ANGLE_OK_MARGIN : ℝ := 5

/-- `MIN_REP_TIME` (`script.js` line 29). -/
def MIN_REP_TIME : ℝ := 5

/-- `MIN_PHASE_TIME` (`script.js` line 30). -/
def MIN_PHASE_TIME : ℝ := 2

/-- `SMOOTHING_ALPHA` (`script.js` line 14). -/
def SMOOTHING_ALPHA : ℝ := 0.3

/-- JS numeric coercion of a possibly-`null` number: `null` coerces to `0`
(used where the source compares or subtracts a nullable variable). -/
def jsNum (o : Option ℝ) : ℝ := o.getD 0

/-- JS `a || b` on a possibly-`null` number `a`: yields `b` when `a` is
`null` (or the falsy number `0`), else `a`. -/
def jsOr (o : Option ℝ) (d : ℝ) : ℝ :=
  match o with
  | none => d
  | some v => if v = 0 then d else v

/-- `getKeypoint(pose, name, minScore)` (`script.js` lines 90-95):
find the first keypoint with the given name; reject it when its score is
below `minScore`. -/
def getKeypoint (pose : Option Pose) (name : String) (minScore : ℝ) :
    Option Keypoint :=
  match pose with
  | none => none
  | some p =>
    match p.keypoints.find? (fun k => k.name == name) with
    | none => none
    | some kp => if kp.score < minScore then none else some kp

/-- `getStableKeypoint(pose, name, nowSec, minScore)` (`script.js` lines
98-109).  Returns the resolved `{x, y, score}` (the JS returns the fresh
keypoint object itself in the hit case; its extra `name` field is never
read downstream) together with the updated `lastGood` cache. -/
def getStableKeypoint (g : LastGood) (pose : Option Pose) (l : Landmark)
    (nowSec : ℝ) (minScore : ℝ) : Option StoredKP × LastGood :=
  match getKeypoint pose l.jsName minScore with
  | some direct =>
    (some ⟨direct.x, direct.y, direct.score⟩,
      { g.set l ⟨direct.x, direct.y, direct.score⟩ with timestamp := nowSec })
  | none =>
    match g.get l with
    | some cached =>
      if nowSec - g.timestamp ≤ MAX_GAP_SEC then (some cached, g)
      else (none, g)
    | none => (none, g)

/-- `computeKneeAngle(hip, knee, ankle)` (`script.js` lines 111-126):
`null` when either knee-to-hip or knee-to-ankle vector has zero length,
otherwise `acos` of the clamped normalized dot product, in degrees.
`Math.hypot(a, b)` is `Real.sqrt (a^2 + b^2)`. -/
def computeKneeAngle (hip knee ankle : StoredKP) : Option ℝ :=
  if Real.sqrt ((hip.x - knee.x) ^ 2 + (hip.y - knee.y) ^ 2) = 0 ∨
      Real.sqrt ((ankle.x - knee.x) ^ 2 + (ankle.y - knee.y) ^ 2) = 0 then
    none
  else
    some (Real.arccos (min 1 (max (-1)
        (((hip.x - knee.x) * (ankle.x - knee.x) +
            (hip.y - knee.y) * (ankle.y - knee.y)) /
          (Real.sqrt ((hip.x - knee.x) ^ 2 + (hip.y - knee.y) ^ 2) *
            Real.sqrt ((ankle.x - knee.x) ^ 2 + (ankle.y - knee.y) ^ 2))))) *
      180 / Real.pi)

/-- The rep state machine states (`script.js` line 32). -/
inductive RepState where
  | BENT
  | EXTENDING
  | FLEXING
deriving DecidableEq

/-- The module-level rep-machine variables (`script.js` lines 33-39). -/
structure Machine where
  state : RepState
  repCount : ℕ
  repStartTime : Option ℝ
  extendStartTime : Option ℝ
  flexStartTime : Option ℝ
  maxAngleThisRep : Option ℝ

/-- What `updateLogic` writes into `angleDisplay.textContent`
(the float formatting of `toFixed` is abstracted to the real value). -/
inductive AngleDisplay where
  | noLeg
  | invalid
  | dashes
  | maxAngle (v : ℝ)

/-- Result of one pass of the rep state-machine `switch` (`script.js`
lines 186-272): the updated machine plus the feedback/display writes
performed (a `none` channel was left untouched this frame). -/
structure StepOut where
  machine : Machine
  angleFeedback : Option Feedback
  speedFeedback : Option Feedback
  display : Option AngleDisplay

/-- The rep state-machine `switch` block of `updateLogic` (`script.js`
lines 186-272), acting on the (already smoothed) angle sample.  Where the
source reads a possibly-`null` variable in arithmetic (`maxAngleThisRep`,
and the `||` fallbacks of the duration computation) the JS coercions are
rendered by `jsNum` / `jsOr`.  (Line 210's `maxAngleThisRep.toFixed(1)`
would throw on `null` in JS; the state invariant proved below shows
`maxAngleThisRep` is never `null` there, so modelling it as
`jsNum m1.maxAngleThisRep` is exact on all reachable states.) -/
def repStep (m : Machine) (angle : ℝ) (nowSec : ℝ) : StepOut :=
  match m.state with
  | .BENT =>
    if angle ≤ BENT_THRESHOLD then
      ⟨m, none, none, none⟩
    else
      ⟨{ m with
          state := RepState.EXTENDING
          repStartTime := some nowSec
          extendStartTime := some nowSec
          maxAngleThisRep := some angle },
        some ⟨"Extending... straighten your knee.", Tier.ok⟩,
        some ⟨"", Tier.ok⟩,
        some AngleDisplay.dashes⟩
  | .EXTENDING =>
    let m1 := if angle > jsNum m.maxAngleThisRep then
        { m with maxAngleThisRep := some angle } else m
    if angle < jsNum m1.maxAngleThisRep - 1.0 then
      ⟨{ m1 with state := RepState.FLEXING, flexStartTime := some nowSec },
        some (if jsNum m1.maxAngleThisRep ≥ STRAIGHT_TARGET - ANGLE_OK_MARGIN then
            ⟨"Great extension! Now lower with control.", Tier.ok⟩
          else if jsNum m1.maxAngleThisRep ≥ STRAIGHT_TARGET - 20 then
            ⟨"Almost straight. Try a bit more next time.", Tier.warn⟩
          else
            ⟨"Too shallow. Straighten your leg more.", Tier.bad⟩),
        none,
        some (AngleDisplay.maxAngle (jsNum m1.maxAngleThisRep))⟩
    else
      ⟨m1, none, none, none⟩
  | .FLEXING =>
    if angle ≤ BENT_THRESHOLD then
      ⟨⟨RepState.BENT, m.repCount + 1, none, none, none, none⟩,
        some (if jsNum m.maxAngleThisRep ≥ STRAIGHT_TARGET - ANGLE_OK_MARGIN then
            ⟨"Rep " ++ toString (m.repCount + 1) ++ ": Excellent extension!",
              Tier.ok⟩
          else if jsNum m.maxAngleThisRep ≥ STRAIGHT_TARGET - 20 then
            ⟨"Rep " ++ toString (m.repCount + 1) ++
                ": Good, try to extend a bit further.", Tier.warn⟩
          else
            ⟨"Rep " ++ toString (m.repCount + 1) ++ ": Extend your leg more.",
              Tier.bad⟩),
        some (if nowSec - jsOr m.repStartTime nowSec < MIN_REP_TIME ∨
              jsOr m.flexStartTime nowSec -
                jsOr m.extendStartTime (jsOr m.repStartTime nowSec) <
                MIN_PHASE_TIME ∨
              nowSec - jsOr m.flexStartTime nowSec < MIN_PHASE_TIME then
            ⟨"Rep " ++ toString (m.repCount + 1) ++
                ": Too fast. Slow down your movement.", Tier.bad⟩
          else
            ⟨"Rep " ++ toString (m.repCount + 1) ++ ": Good tempo and control.",
              Tier.ok⟩),
        none⟩
    else
      ⟨m, none, none, none⟩

/-- `smoothedAngle` update (`script.js` lines 180-182): when no smoothed
value exists yet the source first sets it to the raw sample and then
applies the blend to it. -/
def nextSmoothed (prev : Option ℝ) (angle : ℝ) : ℝ :=
  match prev with
  | none => SMOOTHING_ALPHA * angle + (1 - SMOOTHING_ALPHA) * angle
  | some p => SMOOTHING_ALPHA * angle + (1 - SMOOTHING_ALPHA) * p

/-- The whole mutable module-level state of the core: the stabilizer
cache, the smoothed angle, and the rep machine. -/
structure AppState where
  lastGood : LastGood
  smoothedAngle : Option ℝ
  machine : Machine

/-- The three sequential `getStableKeypoint` calls of `updateLogic`
(`script.js` lines 164-166); each call sees the cache as mutated by the
previous one.  Returns the three resolutions and the final cache. -/
def resolveLeg (s : AppState) (pose : Option Pose) (nowSec : ℝ) :
    (Option StoredKP × Option StoredKP × Option StoredKP) × LastGood :=
  match getStableKeypoint s.lastGood pose Landmark.right_hip nowSec 0.3 with
  | (hip, g1) =>
    match getStableKeypoint g1 pose Landmark.right_knee nowSec 0.3 with
    | (knee, g2) =>
      match getStableKeypoint g2 pose Landmark.right_ankle nowSec 0.3 with
      | (ankle, g3) => ((hip, knee, ankle), g3)

/-- The usable raw angle sample of a frame, when one exists: all three
landmarks resolve and the geometry is non-degenerate (`script.js` lines
164-177; the `isNaN` guard of line 174 can never fire in the real-number
model, where `computeKneeAngle` always yields a real when non-`null`). -/
def rawAngle (s : AppState) (pose : Option Pose) (nowSec : ℝ) : Option ℝ :=
  match (resolveLeg s pose nowSec).1 with
  | (some hip, some knee, some ankle) => computeKneeAngle hip knee ankle
  | _ => none

/-- The per-frame observable writes of `updateLogic`. -/
structure FrameOut where
  angleFeedback : Option Feedback
  speedFeedback : Option Feedback
  display : Option AngleDisplay

/-- `updateLogic(pose)` (`script.js` lines 161-273) as a function of the
frame's pose, the frame time `nowSec = performance.now() / 1000`, and the
module state; yields the new module state and the frame's writes. -/
def updateLogic (pose : Option Pose) (nowSec : ℝ) (s : AppState) :
    AppState × FrameOut :=
  match (resolveLeg s pose nowSec).1 with
  | (some hip, some knee, some ankle) =>
    match computeKneeAngle hip knee ankle with
    | none =>
      ({ s with lastGood := (resolveLeg s pose nowSec).2 },
        ⟨none, none, some AngleDisplay.invalid⟩)
    | some angle =>
      let sm := nextSmoothed s.smoothedAngle angle
      let out := repStep s.machine sm nowSec
      (⟨(resolveLeg s pose nowSec).2, some sm, out.machine⟩,
        ⟨out.angleFeedback, out.speedFeedback, out.display⟩)
  | _ =>
    ({ s with lastGood := (resolveLeg s pose nowSec).2 },
      ⟨none, none, some AngleDisplay.noLeg⟩)

/-- Initial rep machine (`script.js` lines 33-39). -/
def initMachine : Machine :=
  ⟨RepState.BENT, 0, none, none, none, none⟩

/-- Initial stabilizer cache (`script.js` lines 17-22). -/
def initLastGood : LastGood :=
  ⟨none, none, none, 0⟩

/-- Initial module state (`script.js` lines 13-39). -/
def initState : AppState :=
  ⟨initLastGood, none, initMachine⟩

/-- The module states reachable by running `updateLogic` on any sequence
of frames.  `performance.now()` is the strictly positive elapsed time
since the page's time origin by the time the render loop runs, hence the
`0 < nowSec` hypothesis on each step. -/
inductive Reachable : AppState → Prop where
  | init : Reachable initState
  | step (pose : Option Pose) (nowSec : ℝ) (s : AppState) (hpos : 0 < nowSec)
      (h : Reachable s) : Reachable (updateLogic pose nowSec s).1

/-- Iterated smoothing under a constant raw input `a`, starting from no
smoothed value (the state at process start). -/
def smoothIter (a : ℝ) : ℕ → ℝ
  | 0 => nextSmoothed none a
  | n + 1 => nextSmoothed (some (smoothIter a n)) a

/-- Claim C8: after the first valid angle sample `a` the smoothed value
equals exactly `a`; each subsequent valid sample `a` turns a previous
smoothed value `p` into `0.3 * a + 0.7 * p`; and under a constant input
`a` the smoothed value equals `a` on every step. -/
theorem C8_smoothing_update_and_idempotence :
    (∀ a : ℝ, nextSmoothed none a = a) ∧
    (∀ (a p : ℝ), nextSmoothed (some p) a = 0.3 * a + 0.7 * p) ∧
    (∀ (a : ℝ) (n : ℕ), smoothIter a n = a) := by
  have h1 : ∀ a : ℝ, nextSmoothed none a = a := by
    intro a
    show SMOOTHING_ALPHA * a + (1 - SMOOTHING_ALPHA) * a = a
    ring
  have h2 : ∀ (a p : ℝ), nextSmoothed (some p) a = 0.3 * a + 0.7 * p := by
    intro a p
    show SMOOTHING_ALPHA * a + (1 - SMOOTHING_ALPHA) * p = 0.3 * a + 0.7 * p
    norm_num [SMOOTHING_ALPHA]
  refine ⟨h1, h2, ?_⟩
  intro a n
  induction n with
  | zero => exact h1 a
  | succ n ih =>
    rw [smoothIter, ih, h2]
    ring
lemma repStep_BENT_stay (m : Machine) (angle nowSec : ℝ)
    (hst : m.state = RepState.BENT) (h : angle ≤ BENT_THRESHOLD) :
    repStep m angle nowSec = ⟨m, none, none, none⟩ := by
  obtain ⟨st, rc, rs, es, fs, ma⟩ := m
  have hst' : st = RepState.BENT := hst
  subst hst'
  simp only [repStep, if_pos h]

lemma repStep_BENT_go (m : Machine) (angle nowSec : ℝ)
    (hst : m.state = RepState.BENT) (h : ¬ angle ≤ BENT_THRESHOLD) :
    repStep m angle nowSec =
      ⟨{ m with
          state := RepState.EXTENDING
          repStartTime := some nowSec
          extendStartTime := some nowSec
          maxAngleThisRep := some angle },
        some ⟨"Extending... straighten your knee.", Tier.ok⟩,
        some ⟨"", Tier.ok⟩,
        some AngleDisplay.dashes⟩ := by
  obtain ⟨st, rc, rs, es, fs, ma⟩ := m
  have hst' : st = RepState.BENT := hst
  subst hst'
  simp only [repStep, if_neg h]

lemma repStep_EXTENDING_rise (m : Machine) (angle nowSec : ℝ)
    (hst : m.state = RepState.EXTENDING)
    (h1 : angle > jsNum m.maxAngleThisRep) :
    repStep m angle nowSec =
      ⟨{ m with maxAngleThisRep := some angle }, none, none, none⟩ := by
  obtain ⟨st, rc, rs, es, fs, ma⟩ := m
  have hst' : st = RepState.EXTENDING := hst
  subst hst'
  have h2 : ¬ (angle < jsNum (some angle) - 1.0) := by
    simp only [jsNum, Option.getD]
    norm_num
  simp only [repStep, if_pos h1, if_neg h2]

lemma repStep_EXTENDING_peak (m : Machine) (angle nowSec : ℝ)
    (hst : m.state = RepState.EXTENDING)
    (h1 : ¬ angle > jsNum m.maxAngleThisRep)
    (h2 : angle < jsNum m.maxAngleThisRep - 1.0) :
    repStep m angle nowSec =
      ⟨{ m with state := RepState.FLEXING, flexStartTime := some nowSec },
        some (if jsNum m.maxAngleThisRep ≥ STRAIGHT_TARGET - ANGLE_OK_MARGIN then
            ⟨"Great extension! Now lower with control.", Tier.ok⟩
          else if jsNum m.maxAngleThisRep ≥ STRAIGHT_TARGET - 20 then
            ⟨"Almost straight. Try a bit more next time.", Tier.warn⟩
          else
            ⟨"Too shallow. Straighten your leg more.", Tier.bad⟩),
        none,
        some (AngleDisplay.maxAngle (jsNum m.maxAngleThisRep))⟩ := by
  obtain ⟨st, rc, rs, es, fs, ma⟩ := m
  have hst' : st = RepState.EXTENDING := hst
  subst hst'
  simp only [repStep, if_neg h1, if_pos h2]

lemma repStep_EXTENDING_hold (m : Machine) (angle nowSec : ℝ)
    (hst : m.state = RepState.EXTENDING)
    (h1 : ¬ angle > jsNum m.maxAngleThisRep)
    (h2 : ¬ angle < jsNum m.maxAngleThisRep - 1.0) :
    repStep m angle nowSec = ⟨m, none, none, none⟩ := by
  obtain ⟨st, rc, rs, es, fs, ma⟩ := m
  have hst' : st = RepState.EXTENDING := hst
  subst hst'
  simp only [repStep, if_neg h1, if_neg h2]

lemma repStep_FLEXING_complete (m : Machine) (angle nowSec : ℝ)
    (hst : m.state = RepState.FLEXING) (h : angle ≤ BENT_THRESHOLD) :
    repStep m angle nowSec =
      ⟨⟨RepState.BENT, m.repCount + 1, none, none, none, none⟩,
        some (if jsNum m.maxAngleThisRep ≥ STRAIGHT_TARGET - ANGLE_OK_MARGIN then
            ⟨"Rep " ++ toString (m.repCount + 1) ++ ": Excellent extension!",
              Tier.ok⟩
          else if jsNum m.maxAngleThisRep ≥ STRAIGHT_TARGET - 20 then
            ⟨"Rep " ++ toString (m.repCount + 1) ++
                ": Good, try to extend a bit further.", Tier.warn⟩
          else
            ⟨"Rep " ++ toString (m.repCount + 1) ++ ": Extend your leg more.",
              Tier.bad⟩),
        some (if nowSec - jsOr m.repStartTime nowSec < MIN_REP_TIME ∨
              jsOr m.flexStartTime nowSec -
                jsOr m.extendStartTime (jsOr m.repStartTime nowSec) <
                MIN_PHASE_TIME ∨
              nowSec - jsOr m.flexStartTime nowSec < MIN_PHASE_TIME then
            ⟨"Rep " ++ toString (m.repCount + 1) ++
                ": Too fast. Slow down your movement.", Tier.bad⟩
          else
            ⟨"Rep " ++ toString (m.repCount + 1) ++ ": Good tempo and control.",
              Tier.ok⟩),
        none⟩ := by
  obtain ⟨st, rc, rs, es, fs, ma⟩ := m
  have hst' : st = RepState.FLEXING := hst
  subst hst'
  simp only [repStep, if_pos h]

lemma repStep_FLEXING_hold (m : Machine) (angle nowSec : ℝ)
    (hst : m.state = RepState.FLEXING) (h : ¬ angle ≤ BENT_THRESHOLD) :
    repStep m angle nowSec = ⟨m, none, none, none⟩ := by
  obtain ⟨st, rc, rs, es, fs, ma⟩ := m
  have hst' : st = RepState.FLEXING := hst
  subst hst'
  simp only [repStep, if_neg h]

lemma jsNum_some (x : ℝ) : jsNum (some x) = x := rfl

lemma jsNum_none : jsNum none = 0 := rfl

lemma jsOr_some_of_ne (x d : ℝ) (h : x ≠ 0) : jsOr (some x) d = x := by
  simp only [jsOr, if_neg h]

lemma jsOr_none (d : ℝ) : jsOr none d = d := rfl

/-- Claim C1: per smoothed-angle sample, BENT goes to EXTENDING iff the
angle is strictly greater than 110 (at exactly 110 it stays BENT);
EXTENDING goes to FLEXING iff the angle is strictly below
`maxAngleThisRep - 1.0`; FLEXING returns to BENT, completing the rep,
iff the angle is at most 110 (at exactly 110 the rep completes). -/
theorem C1_transition_thresholds (m : Machine) (angle nowSec : ℝ) :
    (m.state = RepState.BENT →
      (((repStep m angle nowSec).machine.state = RepState.EXTENDING ↔
          BENT_THRESHOLD < angle) ∧
        (angle = BENT_THRESHOLD →
          (repStep m angle nowSec).machine.state = RepState.BENT))) ∧
    (∀ M : ℝ, m.state = RepState.EXTENDING → m.maxAngleThisRep = some M →
      ((repStep m angle nowSec).machine.state = RepState.FLEXING ↔
        angle < M - 1.0)) ∧
    (m.state = RepState.FLEXING →
      (((repStep m angle nowSec).machine.state = RepState.BENT ∧
          (repStep m angle nowSec).machine.repCount = m.repCount + 1) ↔
        angle ≤ BENT_THRESHOLD)) := by
  refine ⟨?_, ?_, ?_⟩
  · intro hst
    by_cases h : angle ≤ BENT_THRESHOLD
    · rw [repStep_BENT_stay m angle nowSec hst h]
      constructor
      · rw [hst]
        constructor
        · intro hx
          cases hx
        · intro hx
          linarith
      · intro _
        exact hst
    · rw [repStep_BENT_go m angle nowSec hst h]
      constructor
      · simpa using not_le.mp h
      · intro hx
        exact absurd hx (by push_neg at h; linarith)
  · intro M hst hM
    have hjs : jsNum m.maxAngleThisRep = M := by rw [hM]; rfl
    by_cases h1 : angle > jsNum m.maxAngleThisRep
    · rw [repStep_EXTENDING_rise m angle nowSec hst h1]
      rw [hjs] at h1
      constructor
      · intro hx
        rw [show ({ m with maxAngleThisRep := some angle } : Machine).state =
            m.state from rfl, hst] at hx
        cases hx
      · intro hx
        norm_num at hx
        linarith
    · by_cases h2 : angle < jsNum m.maxAngleThisRep - 1.0
      · rw [repStep_EXTENDING_peak m angle nowSec hst h1 h2]
        rw [hjs] at h2
        simpa using h2
      · rw [repStep_EXTENDING_hold m angle nowSec hst h1 h2]
        rw [hjs] at h2
        rw [hst]
        constructor
        · intro hx
          cases hx
        · intro hx
          exact absurd hx h2
  · intro hst
    by_cases h : angle ≤ BENT_THRESHOLD
    · rw [repStep_FLEXING_complete m angle nowSec hst h]
      simpa using h
    · rw [repStep_FLEXING_hold m angle nowSec hst h]
      rw [hst]
      constructor
      · rintro ⟨hx, -⟩
        cases hx
      · intro hx
        exact absurd hx h

/-- Concrete instance of `C1_transition_thresholds`: from BENT with sample
120 the machine transitions to EXTENDING; from FLEXING with sample exactly
110 the rep completes. -/
theorem C1_transition_thresholds_witness :
    (repStep ⟨RepState.BENT, 0, none, none, none, none⟩ 120 1).machine.state =
        RepState.EXTENDING ∧
      ((repStep ⟨RepState.FLEXING, 0, some 1, some 1, some 2, some 150⟩ 110
            4).machine.state = RepState.BENT ∧
        (repStep ⟨RepState.FLEXING, 0, some 1, some 1, some 2, some 150⟩ 110
            4).machine.repCount = 0 + 1) :=
  ⟨((C1_transition_thresholds ⟨RepState.BENT, 0, none, none, none, none⟩
      120 1).1 rfl).1.mpr (by norm_num [BENT_THRESHOLD]),
    ((C1_transition_thresholds ⟨RepState.FLEXING, 0, some 1, some 1, some 2,
        some 150⟩ 110 4).2.2 rfl).mpr (by norm_num [BENT_THRESHOLD])⟩

/-- Claim C3: at every EXTENDING-to-FLEXING transition and again at every
rep completion, the emitted extension-quality tier is a pure function of
`maxAngleThisRep`: ok iff it is at least 160 degrees, warn iff it is at
least 145 and below 160, bad iff it is below 145. -/
theorem C3_extension_quality_tiers (m : Machine) (angle nowSec M : ℝ) :
    (m.state = RepState.EXTENDING → m.maxAngleThisRep = some M →
      angle < M - 1.0 →
      ∃ fb, (repStep m angle nowSec).angleFeedback = some fb ∧
        (fb.level = Tier.ok ↔ 160 ≤ M) ∧
        (fb.level = Tier.warn ↔ 145 ≤ M ∧ M < 160) ∧
        (fb.level = Tier.bad ↔ M < 145)) ∧
    (m.state = RepState.FLEXING → m.maxAngleThisRep = some M →
      angle ≤ BENT_THRESHOLD →
      ∃ fb, (repStep m angle nowSec).angleFeedback = some fb ∧
        (fb.level = Tier.ok ↔ 160 ≤ M) ∧
        (fb.level = Tier.warn ↔ 145 ≤ M ∧ M < 160) ∧
        (fb.level = Tier.bad ↔ M < 145)) := by
  constructor
  · intro hst hM hpk
    have hjs : jsNum m.maxAngleThisRep = M := by rw [hM]; rfl
    have h1 : ¬ angle > jsNum m.maxAngleThisRep := by
      rw [hjs]
      norm_num
      linarith
    have h2 : angle < jsNum m.maxAngleThisRep - 1.0 := by rw [hjs]; exact hpk
    rw [repStep_EXTENDING_peak m angle nowSec hst h1 h2, hjs]
    refine ⟨_, rfl, ?_⟩
    split_ifs with ha hb
    · rw [show STRAIGHT_TARGET - ANGLE_OK_MARGIN = (160 : ℝ) by
        norm_num [STRAIGHT_TARGET, ANGLE_OK_MARGIN]] at ha
      refine ⟨by simpa using ha, ?_, ?_⟩
      · simp only [show (Tier.warn = Tier.ok) = False by simp, false_iff]
        rintro ⟨-, hlt⟩
        linarith
      · simp only [show (Tier.bad = Tier.ok) = False by simp, false_iff]
        intro hlt
        linarith
    · rw [show STRAIGHT_TARGET - ANGLE_OK_MARGIN = (160 : ℝ) by
        norm_num [STRAIGHT_TARGET, ANGLE_OK_MARGIN]] at ha
      rw [show STRAIGHT_TARGET - 20 = (145 : ℝ) by
        norm_num [STRAIGHT_TARGET]] at hb
      push_neg at ha
      refine ⟨?_, ?_, ?_⟩
      · simp only [show (Tier.ok = Tier.warn) = False by simp, false_iff]
        intro hx
        linarith
      · simpa using ⟨hb, ha⟩
      · simp only [show (Tier.bad = Tier.warn) = False by simp, false_iff]
        intro hlt
        linarith
    · rw [show STRAIGHT_TARGET - ANGLE_OK_MARGIN = (160 : ℝ) by
        norm_num [STRAIGHT_TARGET, ANGLE_OK_MARGIN]] at ha
      rw [show STRAIGHT_TARGET - 20 = (145 : ℝ) by
        norm_num [STRAIGHT_TARGET]] at hb
      push_neg at ha hb
      refine ⟨?_, ?_, ?_⟩
      · simp only [show (Tier.ok = Tier.bad) = False by simp, false_iff]
        intro hx
        linarith
      · simp only [show (Tier.warn = Tier.bad) = False by simp, false_iff]
        rintro ⟨hx, -⟩
        linarith
      · simpa using hb
  · intro hst hM hcomp
    have hjs : jsNum m.maxAngleThisRep = M := by rw [hM]; rfl
    rw [repStep_FLEXING_complete m angle nowSec hst hcomp, hjs]
    refine ⟨_, rfl, ?_⟩
    split_ifs with ha hb
    · rw [show STRAIGHT_TARGET - ANGLE_OK_MARGIN = (160 : ℝ) by
        norm_num [STRAIGHT_TARGET, ANGLE_OK_MARGIN]] at ha
      refine ⟨by simpa using ha, ?_, ?_⟩
      · simp only [show (Tier.warn = Tier.ok) = False by simp, false_iff]
        rintro ⟨-, hlt⟩
        linarith
      · simp only [show (Tier.bad = Tier.ok) = False by simp, false_iff]
        intro hlt
        linarith
    · rw [show STRAIGHT_TARGET - ANGLE_OK_MARGIN = (160 : ℝ) by
        norm_num [STRAIGHT_TARGET, ANGLE_OK_MARGIN]] at ha
      rw [show STRAIGHT_TARGET - 20 = (145 : ℝ) by
        norm_num [STRAIGHT_TARGET]] at hb
      push_neg at ha
      refine ⟨?_, ?_, ?_⟩
      · simp only [show (Tier.ok = Tier.warn) = False by simp, false_iff]
        intro hx
        linarith
      · simpa using ⟨hb, ha⟩
      · simp only [show (Tier.bad = Tier.warn) = False by simp, false_iff]
        intro hlt
        linarith
    · rw [show STRAIGHT_TARGET - ANGLE_OK_MARGIN = (160 : ℝ) by
        norm_num [STRAIGHT_TARGET, ANGLE_OK_MARGIN]] at ha
      rw [show STRAIGHT_TARGET - 20 = (145 : ℝ) by
        norm_num [STRAIGHT_TARGET]] at hb
      push_neg at ha hb
      refine ⟨?_, ?_, ?_⟩
      · simp only [show (Tier.ok = Tier.bad) = False by simp, false_iff]
        intro hx
        linarith
      · simp only [show (Tier.warn = Tier.bad) = False by simp, false_iff]
        rintro ⟨hx, -⟩
        linarith
      · simpa using hb

/-- Concrete instance of `C3_extension_quality_tiers`: a rep whose
`maxAngleThisRep` is 150 degrees is tiered warning, both at the peak
transition and at completion. -/
theorem C3_extension_quality_tiers_witness :
    (∃ fb, (repStep ⟨RepState.EXTENDING, 0, some 1, some 1, none, some 150⟩
        100 2).angleFeedback = some fb ∧ fb.level = Tier.warn) ∧
    (∃ fb, (repStep ⟨RepState.FLEXING, 0, some 1, some 1, some 2, some 150⟩
        100 4).angleFeedback = some fb ∧ fb.level = Tier.warn) := by
  constructor
  · obtain ⟨fb, hfb, -, hw, -⟩ :=
      (C3_extension_quality_tiers
        ⟨RepState.EXTENDING, 0, some 1, some 1, none, some 150⟩ 100 2 150).1
        rfl rfl (by norm_num)
    exact ⟨fb, hfb, hw.mpr (by norm_num)⟩
  · obtain ⟨fb, hfb, -, hw, -⟩ :=
      (C3_extension_quality_tiers
        ⟨RepState.FLEXING, 0, some 1, some 1, some 2, some 150⟩ 100 4 150).2
        rfl rfl (by norm_num [BENT_THRESHOLD])
    exact ⟨fb, hfb, hw.mpr (by norm_num)⟩

/-- Claim C4: at rep completion, with `totalTime = repEnd - repStart`,
`extendTime = flexStart - extendStart` and `flexTime = repEnd - flexStart`,
the tempo event is bad ("too fast") iff `totalTime < 5` or
`extendTime < 2` or `flexTime < 2`, and ok ("good tempo") otherwise;
in particular a rep whose total elapsed time is 3 seconds is always
classified too fast. -/
theorem C4_tempo_classification (m : Machine) (angle nowSec r e f : ℝ)
    (hst : m.state = RepState.FLEXING)
    (hr : m.repStartTime = some r) (hrpos : 0 < r)
    (he : m.extendStartTime = some e) (hepos : 0 < e)
    (hf : m.flexStartTime = some f) (hfpos : 0 < f)
    (hcomp : angle ≤ BENT_THRESHOLD) :
    ∃ fb, (repStep m angle nowSec).speedFeedback = some fb ∧
      (fb.level = Tier.bad ↔
        (nowSec - r < MIN_REP_TIME ∨ f - e < MIN_PHASE_TIME ∨
          nowSec - f < MIN_PHASE_TIME)) ∧
      (fb.level = Tier.ok ↔
        ¬ (nowSec - r < MIN_REP_TIME ∨ f - e < MIN_PHASE_TIME ∨
          nowSec - f < MIN_PHASE_TIME)) ∧
      (nowSec - r = 3 → fb.level = Tier.bad) := by
  have hjr : jsOr m.repStartTime nowSec = r := by
    rw [hr]
    exact jsOr_some_of_ne r nowSec (ne_of_gt hrpos)
  have hje : jsOr m.extendStartTime r = e := by
    rw [he]
    exact jsOr_some_of_ne e r (ne_of_gt hepos)
  have hjf : jsOr m.flexStartTime nowSec = f := by
    rw [hf]
    exact jsOr_some_of_ne f nowSec (ne_of_gt hfpos)
  rw [repStep_FLEXING_complete m angle nowSec hst hcomp, hjr, hje, hjf]
  refine ⟨_, rfl, ?_⟩
  split_ifs with hc
  · refine ⟨by simpa using hc, ?_, fun _ => rfl⟩
    simp only [show (Tier.bad = Tier.ok) = False by simp, false_iff]
    intro hx
    exact hx hc
  · refine ⟨?_, by simpa using hc, ?_⟩
    · simp only [show (Tier.ok = Tier.bad) = False by simp, false_iff]
      intro hx
      exact hc hx
    · intro h3
      exfalso
      apply hc
      left
      rw [h3]
      norm_num [MIN_REP_TIME]

/-- Concrete instance of `C4_tempo_classification`: a rep completing at
time 4 that started at time 1 (total elapsed time 3 seconds) is tiered
bad even though both phase durations could pass in isolation only if
they summed above 3; here extend and flex times are 1 and 2. -/
theorem C4_tempo_classification_witness :
    ∃ fb, (repStep ⟨RepState.FLEXING, 0, some 1, some 1, some 2, some 150⟩
        100 4).speedFeedback = some fb ∧ fb.level = Tier.bad := by
  obtain ⟨fb, hfb, hbad, -, h3⟩ :=
    C4_tempo_classification
      ⟨RepState.FLEXING, 0, some 1, some 1, some 2, some 150⟩ 100 4 1 1 2
      rfl rfl (by norm_num) rfl (by norm_num) rfl (by norm_num)
      (by norm_num [BENT_THRESHOLD])
  exact ⟨fb, hfb, h3 (by norm_num)⟩

lemma updateLogic_of_rawAngle_none (pose : Option Pose) (nowSec : ℝ)
    (s : AppState) (h : rawAngle s pose nowSec = none) :
    (updateLogic pose nowSec s).1 =
        { s with lastGood := (resolveLeg s pose nowSec).2 } ∧
      ((updateLogic pose nowSec s).2.display = some AngleDisplay.noLeg ∨
        (updateLogic pose nowSec s).2.display = some AngleDisplay.invalid) := by
  unfold rawAngle at h
  unfold updateLogic
  rcases hres : (resolveLeg s pose nowSec).1 with ⟨hip, knee, ankle⟩
  rw [hres] at h
  cases hip <;> cases knee <;> cases ankle <;> simp_all

lemma updateLogic_of_rawAngle_some (pose : Option Pose) (nowSec : ℝ)
    (s : AppState) (a : ℝ) (h : rawAngle s pose nowSec = some a) :
    (updateLogic pose nowSec s).1 =
        ⟨(resolveLeg s pose nowSec).2, some (nextSmoothed s.smoothedAngle a),
          (repStep s.machine (nextSmoothed s.smoothedAngle a) nowSec).machine⟩ ∧
      (updateLogic pose nowSec s).2 =
        ⟨(repStep s.machine (nextSmoothed s.smoothedAngle a) nowSec).angleFeedback,
          (repStep s.machine (nextSmoothed s.smoothedAngle a) nowSec).speedFeedback,
          (repStep s.machine (nextSmoothed s.smoothedAngle a) nowSec).display⟩ := by
  unfold rawAngle at h
  unfold updateLogic
  rcases hres : (resolveLeg s pose nowSec).1 with ⟨hip, knee, ankle⟩
  rw [hres] at h
  cases hip <;> cases knee <;> cases ankle <;> simp_all

lemma repStep_repCount (m : Machine) (angle nowSec : ℝ) :
    (repStep m angle nowSec).machine.repCount =
      m.repCount +
        (if m.state = RepState.FLEXING ∧ angle ≤ BENT_THRESHOLD then 1
          else 0) := by
  rcases hst : m.state with _ | _ | _
  · by_cases h : angle ≤ BENT_THRESHOLD
    · rw [repStep_BENT_stay m angle nowSec hst h]
      simp [hst]
    · rw [repStep_BENT_go m angle nowSec hst h]
      simp [hst]
  · by_cases h1 : angle > jsNum m.maxAngleThisRep
    · rw [repStep_EXTENDING_rise m angle nowSec hst h1]
      simp [hst]
    · by_cases h2 : angle < jsNum m.maxAngleThisRep - 1.0
      · rw [repStep_EXTENDING_peak m angle nowSec hst h1 h2]
        simp [hst]
      · rw [repStep_EXTENDING_hold m angle nowSec hst h1 h2]
        simp [hst]
  · by_cases h : angle ≤ BENT_THRESHOLD
    · rw [repStep_FLEXING_complete m angle nowSec hst h]
      simp [hst, h]
    · rw [repStep_FLEXING_hold m angle nowSec hst h]
      simp [hst, h]

/-- The exact completion condition of a frame: the machine is FLEXING and
the frame yields a usable angle sample whose smoothed value is at most
`BENT_THRESHOLD` (`script.js` lines 222-230). -/
def completes (s : AppState) (pose : Option Pose) (nowSec : ℝ) : Prop :=
  s.machine.state = RepState.FLEXING ∧
  ∃ a, rawAngle s pose nowSec = some a ∧
    nextSmoothed s.smoothedAngle a ≤ BENT_THRESHOLD

/-- Claim C2: the rep counter starts at 0, never decreases, and each
frame increments it by exactly 1 when that frame completes a rep
(FLEXING with smoothed angle at most the bent threshold) and leaves it
unchanged otherwise. -/
theorem C2_rep_counter :
    initState.machine.repCount = 0 ∧
    ∀ (pose : Option Pose) (nowSec : ℝ) (s : AppState),
      (updateLogic pose nowSec s).1.machine.repCount =
          s.machine.repCount +
            (if completes s pose nowSec then 1 else 0) ∧
        s.machine.repCount ≤ (updateLogic pose nowSec s).1.machine.repCount := by
  refine ⟨rfl, ?_⟩
  intro pose nowSec s
  have key : (updateLogic pose nowSec s).1.machine.repCount =
      s.machine.repCount + (if completes s pose nowSec then 1 else 0) := by
    cases hra : rawAngle s pose nowSec with
    | none =>
      have hupd := (updateLogic_of_rawAngle_none pose nowSec s hra).1
      have hcomp : ¬ completes s pose nowSec := by
        rintro ⟨-, a, ha, -⟩
        rw [hra] at ha
        cases ha
      rw [hupd, if_neg hcomp]
      simp
    | some a =>
      have hupd := (updateLogic_of_rawAngle_some pose nowSec s a hra).1
      rw [hupd]
      have hcomp : completes s pose nowSec ↔
          (s.machine.state = RepState.FLEXING ∧
            nextSmoothed s.smoothedAngle a ≤ BENT_THRESHOLD) := by
        constructor
        · rintro ⟨hs, b, hb, hble⟩
          rw [hra] at hb
          cases hb
          exact ⟨hs, hble⟩
        · rintro ⟨hs, hle⟩
          exact ⟨hs, a, hra, hle⟩
      rw [show (⟨(resolveLeg s pose nowSec).2,
            some (nextSmoothed s.smoothedAngle a),
            (repStep s.machine (nextSmoothed s.smoothedAngle a)
              nowSec).machine⟩ : AppState).machine =
          (repStep s.machine (nextSmoothed s.smoothedAngle a) nowSec).machine
          from rfl]
      rw [repStep_repCount s.machine (nextSmoothed s.smoothedAngle a) nowSec]
      congr 1
      by_cases hc : s.machine.state = RepState.FLEXING ∧
          nextSmoothed s.smoothedAngle a ≤ BENT_THRESHOLD
      · rw [if_pos hc, if_pos (hcomp.mpr hc)]
      · rw [if_neg hc, if_neg (fun hx => hc (hcomp.mp hx))]
  exact ⟨key, by rw [key]; exact Nat.le_add_right _ _⟩

/-- Claim C9: a frame with no usable angle sample (a landmark fails to
resolve, or the geometry is degenerate so `computeKneeAngle` is absent —
the `isNaN` case of the source cannot occur in the real-number model)
takes no state-machine transition: machine state, rep counter, all four
per-rep working fields and the smoothed angle are unchanged, and the pass
still produces its degraded display output rather than aborting. -/
theorem C9_absent_sample_no_mutation (pose : Option Pose) (nowSec : ℝ)
    (s : AppState) (h : rawAngle s pose nowSec = none) :
    (updateLogic pose nowSec s).1.machine = s.machine ∧
      (updateLogic pose nowSec s).1.smoothedAngle = s.smoothedAngle ∧
      ((updateLogic pose nowSec s).2.display = some AngleDisplay.noLeg ∨
        (updateLogic pose nowSec s).2.display = some AngleDisplay.invalid) := by
  obtain ⟨hupd, hdisp⟩ := updateLogic_of_rawAngle_none pose nowSec s h
  rw [hupd]
  exact ⟨rfl, rfl, hdisp⟩

/-- Concrete instance of `C9_absent_sample_no_mutation`: a frame with no
pose at all, from the initial state, leaves machine and smoothed angle
untouched and reports the undetected display state. -/
theorem C9_absent_sample_no_mutation_witness :
    (updateLogic none 1 initState).1.machine = initState.machine ∧
      (updateLogic none 1 initState).1.smoothedAngle =
        initState.smoothedAngle ∧
      ((updateLogic none 1 initState).2.display = some AngleDisplay.noLeg ∨
        (updateLogic none 1 initState).2.display =
          some AngleDisplay.invalid) :=
  C9_absent_sample_no_mutation none 1 initState rfl

/-- The structural invariant of the rep machine: per-rep working fields
are `null` exactly while BENT, and carry positive timestamps otherwise. -/
def MachineInv (m : Machine) : Prop :=
  (m.state = RepState.BENT →
    m.repStartTime = none ∧ m.extendStartTime = none ∧
      m.flexStartTime = none ∧ m.maxAngleThisRep = none) ∧
  (m.state = RepState.EXTENDING →
    (∃ r, m.repStartTime = some r ∧ 0 < r) ∧
      (∃ e, m.extendStartTime = some e ∧ 0 < e) ∧
      (∃ a, m.maxAngleThisRep = some a)) ∧
  (m.state = RepState.FLEXING →
    (∃ r, m.repStartTime = some r ∧ 0 < r) ∧
      (∃ e, m.extendStartTime = some e ∧ 0 < e) ∧
      (∃ f, m.flexStartTime = some f ∧ 0 < f) ∧
      (∃ a, m.maxAngleThisRep = some a))

lemma machineInv_init : MachineInv initMachine := by
  refine ⟨fun _ => ⟨rfl, rfl, rfl, rfl⟩, fun h => ?_, fun h => ?_⟩ <;> cases h

lemma machineInv_repStep (m : Machine) (angle nowSec : ℝ)
    (hInv : MachineInv m) (hnow : 0 < nowSec) :
    MachineInv (repStep m angle nowSec).machine := by
  obtain ⟨hB, hE, hF⟩ := hInv
  rcases hst : m.state with _ | _ | _
  · by_cases h : angle ≤ BENT_THRESHOLD
    · rw [repStep_BENT_stay m angle nowSec hst h]
      exact ⟨hB, hE, hF⟩
    · rw [repStep_BENT_go m angle nowSec hst h]
      refine ⟨fun hx => ?_, fun _ => ?_, fun hx => ?_⟩
      · cases hx
      · exact ⟨⟨nowSec, rfl, hnow⟩, ⟨nowSec, rfl, hnow⟩, ⟨angle, rfl⟩⟩
      · cases hx
  · obtain ⟨⟨r, hr, hrpos⟩, ⟨e, he, hepos⟩, ⟨a, ha⟩⟩ := hE hst
    by_cases h1 : angle > jsNum m.maxAngleThisRep
    · rw [repStep_EXTENDING_rise m angle nowSec hst h1]
      refine ⟨fun hx => ?_, fun _ => ?_, fun hx => ?_⟩
      · rw [show ({ m with maxAngleThisRep := some angle } : Machine).state =
            m.state from rfl, hst] at hx
        cases hx
      · exact ⟨⟨r, hr, hrpos⟩, ⟨e, he, hepos⟩, ⟨angle, rfl⟩⟩
      · rw [show ({ m with maxAngleThisRep := some angle } : Machine).state =
            m.state from rfl, hst] at hx
        cases hx
    · by_cases h2 : angle < jsNum m.maxAngleThisRep - 1.0
      · rw [repStep_EXTENDING_peak m angle nowSec hst h1 h2]
        refine ⟨fun hx => ?_, fun hx => ?_, fun _ => ?_⟩
        · cases hx
        · cases hx
        · exact ⟨⟨r, hr, hrpos⟩, ⟨e, he, hepos⟩, ⟨nowSec, rfl, hnow⟩, ⟨a, ha⟩⟩
      · rw [repStep_EXTENDING_hold m angle nowSec hst h1 h2]
        exact ⟨hB, hE, hF⟩
  · by_cases h : angle ≤ BENT_THRESHOLD
    · rw [repStep_FLEXING_complete m angle nowSec hst h]
      refine ⟨fun _ => ⟨rfl, rfl, rfl, rfl⟩, fun hx => ?_, fun hx => ?_⟩ <;>
        cases hx
    · rw [repStep_FLEXING_hold m angle nowSec hst h]
      exact ⟨hB, hE, hF⟩

lemma machineInv_reachable (s : AppState) (h : Reachable s) :
    MachineInv s.machine := by
  induction h with
  | init => exact machineInv_init
  | step pose nowSec s' hpos hreach ih =>
    cases hra : rawAngle s' pose nowSec with
    | none =>
      rw [(updateLogic_of_rawAngle_none pose nowSec s' hra).1]
      exact ih
    | some a =>
      rw [(updateLogic_of_rawAngle_some pose nowSec s' a hra).1]
      exact machineInv_repStep s'.machine (nextSmoothed s'.smoothedAngle a)
        nowSec ih hpos

/-- Claim C10: in every reachable configuration, while BENT all four
per-rep working fields are null; while EXTENDING the rep-start time,
extension-start time and per-rep maximum are non-null; while FLEXING all
four are non-null — and the `||` fallbacks of the rep-duration
computation at completion can never take effect, whatever default the
fallback would supply. -/
theorem C10_working_field_nullity (s : AppState) (h : Reachable s) :
    (s.machine.state = RepState.BENT →
      s.machine.repStartTime = none ∧ s.machine.extendStartTime = none ∧
        s.machine.flexStartTime = none ∧ s.machine.maxAngleThisRep = none) ∧
    (s.machine.state = RepState.EXTENDING →
      s.machine.repStartTime.isSome ∧ s.machine.extendStartTime.isSome ∧
        s.machine.maxAngleThisRep.isSome) ∧
    (s.machine.state = RepState.FLEXING →
      (∃ r, s.machine.repStartTime = some r ∧
          ∀ d : ℝ, jsOr s.machine.repStartTime d = r) ∧
        (∃ e, s.machine.extendStartTime = some e ∧
          ∀ d : ℝ, jsOr s.machine.extendStartTime d = e) ∧
        (∃ f, s.machine.flexStartTime = some f ∧
          ∀ d : ℝ, jsOr s.machine.flexStartTime d = f) ∧
        s.machine.maxAngleThisRep.isSome) := by
  obtain ⟨hB, hE, hF⟩ := machineInv_reachable s h
  refine ⟨hB, fun hx => ?_, fun hx => ?_⟩
  · obtain ⟨⟨r, hr, -⟩, ⟨e, he, -⟩, ⟨a, ha⟩⟩ := hE hx
    exact ⟨by rw [hr]; rfl, by rw [he]; rfl, by rw [ha]; rfl⟩
  · obtain ⟨⟨r, hr, hrpos⟩, ⟨e, he, hepos⟩, ⟨f, hf, hfpos⟩, ⟨a, ha⟩⟩ := hF hx
    refine ⟨⟨r, hr, fun d => ?_⟩, ⟨e, he, fun d => ?_⟩, ⟨f, hf, fun d => ?_⟩,
      by rw [ha]; rfl⟩
    · rw [hr]
      exact jsOr_some_of_ne r d (ne_of_gt hrpos)
    · rw [he]
      exact jsOr_some_of_ne e d (ne_of_gt hepos)
    · rw [hf]
      exact jsOr_some_of_ne f d (ne_of_gt hfpos)

/-- Concrete instance of `C10_working_field_nullity`: at the reachable
initial configuration the machine is BENT and all four working fields
are null. -/
theorem C10_working_field_nullity_witness :
    initState.machine.repStartTime = none ∧
      initState.machine.extendStartTime = none ∧
      initState.machine.flexStartTime = none ∧
      initState.machine.maxAngleThisRep = none :=
  (C10_working_field_nullity initState Reachable.init).1 rfl

/-- The pose contains a confident (score at least 0.3) keypoint with the
given name. -/
def hasConfident (pose : Option Pose) (name : String) : Prop :=
  ∃ p, pose = some p ∧ ∃ kp ∈ p.keypoints, kp.name = name ∧ 0.3 ≤ kp.score

/-- At most one keypoint in the pose carries the given landmark name
(the pose estimator emits each named landmark once per frame). -/
def nameUnique (pose : Option Pose) (name : String) : Prop :=
  ∀ p, pose = some p → ∀ k1 ∈ p.keypoints, ∀ k2 ∈ p.keypoints,
    k1.name = name → k2.name = name → k1 = k2

lemma getKeypoint_eq_some (pose : Option Pose) (name : String) (p : Pose)
    (kp : Keypoint) (hp : pose = some p) (hmem : kp ∈ p.keypoints)
    (hname : kp.name = name) (hscore : 0.3 ≤ kp.score)
    (huniq : nameUnique pose name) :
    getKeypoint pose name 0.3 = some kp := by
  have hex : ∃ x ∈ p.keypoints, (fun k => k.name == name) x := by
    exact ⟨kp, hmem, by simpa using hname⟩
  obtain ⟨k', hk'⟩ := Option.isSome_iff_exists.mp (List.find?_isSome.mpr hex)
  have hk'mem : k' ∈ p.keypoints := List.mem_of_find?_eq_some hk'
  have hk'name : k'.name = name := by simpa using List.find?_some hk'
  have hkk : k' = kp := huniq p hp k' hk'mem kp hmem hk'name hname
  subst hkk
  subst hp
  unfold getKeypoint
  simp only [hk']
  rw [if_neg (not_lt.mpr hscore)]

lemma getKeypoint_eq_none (pose : Option Pose) (name : String)
    (h : ¬ hasConfident pose name) :
    getKeypoint pose name 0.3 = none := by
  unfold getKeypoint
  cases pose with
  | none => rfl
  | some p =>
    cases hfind : p.keypoints.find? (fun k => k.name == name) with
    | none => simp only [hfind]
    | some k' =>
      have hk'mem : k' ∈ p.keypoints := List.mem_of_find?_eq_some hfind
      have hk'name : k'.name = name := by simpa using List.find?_some hfind
      by_cases hs : k'.score < 0.3
      · simp only [hfind, if_pos hs]
      · exact absurd ⟨p, rfl, k', hk'mem, hk'name, not_lt.mp hs⟩ h

lemma getStableKeypoint_hit (g : LastGood) (pose : Option Pose)
    (l : Landmark) (nowSec : ℝ) (kp : Keypoint)
    (h : getKeypoint pose l.jsName 0.3 = some kp) :
    getStableKeypoint g pose l nowSec 0.3 =
      (some ⟨kp.x, kp.y, kp.score⟩,
        { g.set l ⟨kp.x, kp.y, kp.score⟩ with timestamp := nowSec }) := by
  unfold getStableKeypoint
  simp only [h]

lemma getStableKeypoint_miss (g : LastGood) (pose : Option Pose)
    (l : Landmark) (nowSec : ℝ)
    (h : getKeypoint pose l.jsName 0.3 = none) :
    getStableKeypoint g pose l nowSec 0.3 =
      match g.get l with
      | some cached =>
        if nowSec - g.timestamp ≤ MAX_GAP_SEC then (some cached, g)
        else (none, g)
      | none => (none, g) := by
  unfold getStableKeypoint
  simp only [h]

lemma LastGood.get_setT_self (g : LastGood) (l : Landmark) (v : StoredKP)
    (t : ℝ) :
    ({ g.set l v with timestamp := t } : LastGood).get l = some v := by
  cases l <;> rfl

lemma LastGood.get_setT_ne (g : LastGood) (l l' : Landmark) (v : StoredKP)
    (t : ℝ) (h : l' ≠ l) :
    ({ g.set l v with timestamp := t } : LastGood).get l' = g.get l' := by
  cases l <;> cases l' <;> first | rfl | exact absurd rfl h

lemma LastGood.timestamp_setT (g : LastGood) (l : Landmark) (v : StoredKP)
    (t : ℝ) :
    ({ g.set l v with timestamp := t } : LastGood).timestamp = t := by
  cases l <;> rfl

/-- Claim C5: for every pose, tracked landmark and time `now`: a confident
(score at least 0.3) keypoint of that name yields the fresh keypoint and
rewrites the cache entry and shared timestamp; failing that, a cache entry
within 0.3 seconds of the shared timestamp is returned unchanged, with no
confidence re-check and no cache mutation; failing both, the landmark
resolves to absent — in particular after more than 0.3 seconds without a
refresh. -/
theorem C5_stabilizer_resolution (pose : Option Pose) (l : Landmark)
    (nowSec : ℝ) (g : LastGood) (huniq : nameUnique pose l.jsName) :
    (∀ p kp, pose = some p → kp ∈ p.keypoints → kp.name = l.jsName →
      0.3 ≤ kp.score →
      getStableKeypoint g pose l nowSec 0.3 =
        (some ⟨kp.x, kp.y, kp.score⟩,
          { g.set l ⟨kp.x, kp.y, kp.score⟩ with timestamp := nowSec })) ∧
    (¬ hasConfident pose l.jsName →
      ∀ c, g.get l = some c → nowSec - g.timestamp ≤ MAX_GAP_SEC →
        getStableKeypoint g pose l nowSec 0.3 = (some c, g)) ∧
    (¬ hasConfident pose l.jsName →
      (g.get l = none ∨ ¬ nowSec - g.timestamp ≤ MAX_GAP_SEC) →
        getStableKeypoint g pose l nowSec 0.3 = (none, g)) := by
  refine ⟨?_, ?_, ?_⟩
  · intro p kp hp hmem hname hscore
    exact getStableKeypoint_hit g pose l nowSec kp
      (getKeypoint_eq_some pose l.jsName p kp hp hmem hname hscore huniq)
  · intro hnc c hc hgap
    rw [getStableKeypoint_miss g pose l nowSec
      (getKeypoint_eq_none pose l.jsName hnc)]
    simp only [hc]
    rw [if_pos hgap]
  · intro hnc hmiss
    rw [getStableKeypoint_miss g pose l nowSec
      (getKeypoint_eq_none pose l.jsName hnc)]
    rcases hmiss with hnone | hstale
    · simp only [hnone]
    · cases hc : g.get l with
      | none => rfl
      | some c =>
        simp only [hc]
        rw [if_neg hstale]

/-- Concrete instance of `C5_stabilizer_resolution`: a fresh confident
right-hip keypoint is returned and cached with the new timestamp, and a
stale cache entry (2 seconds old) with no fresh observation resolves to
absent. -/
theorem C5_stabilizer_resolution_witness :
    getStableKeypoint ⟨none, none, none, 0⟩
        (some ⟨[⟨"right_hip", 1, 2, 0.9⟩]⟩) Landmark.right_hip 1 0.3 =
      (some ⟨1, 2, 0.9⟩, ⟨some ⟨1, 2, 0.9⟩, none, none, 1⟩) ∧
    getStableKeypoint ⟨some ⟨1, 2, 0.9⟩, none, none, 1⟩ none
        Landmark.right_hip 3 0.3 =
      (none, ⟨some ⟨1, 2, 0.9⟩, none, none, 1⟩) := by
  constructor
  · have huniq : nameUnique (some ⟨[⟨"right_hip", 1, 2, 0.9⟩]⟩)
        Landmark.right_hip.jsName := by
      intro p hp k1 hk1 k2 hk2 h1 h2
      obtain rfl : (⟨[⟨"right_hip", 1, 2, 0.9⟩]⟩ : Pose) = p := by
        injection hp
      simp only [List.mem_singleton] at hk1 hk2
      rw [hk1, hk2]
    exact (C5_stabilizer_resolution (some ⟨[⟨"right_hip", 1, 2, 0.9⟩]⟩)
        Landmark.right_hip 1 ⟨none, none, none, 0⟩ huniq).1
      ⟨[⟨"right_hip", 1, 2, 0.9⟩]⟩ ⟨"right_hip", 1, 2, 0.9⟩ rfl
      (List.mem_singleton.mpr rfl) rfl (by norm_num)
  · have huniq : nameUnique (none : Option Pose)
        Landmark.right_hip.jsName := by
      intro p hp
      cases hp
    have hnc : ¬ hasConfident (none : Option Pose)
        Landmark.right_hip.jsName := by
      rintro ⟨p, hp, -⟩
      cases hp
    exact (C5_stabilizer_resolution none Landmark.right_hip 3
        ⟨some ⟨1, 2, 0.9⟩, none, none, 1⟩ huniq).2.2 hnc
      (Or.inr (by norm_num [MAX_GAP_SEC]))

/-- Claim C6: a fresh confident observation of one tracked landmark
overwrites only that landmark's cache slot but refreshes the single
shared timestamp, leaving the other slots' positions unchanged while
extending the validity window of the cache-fallback check for every
landmark: any other landmark with a cached position then resolves from
the cache at any later time within `MAX_GAP_SEC` of the fresh
observation, however stale its own last observation was. -/
theorem C6_shared_timestamp_coupling (g : LastGood) (pose : Option Pose)
    (l : Landmark) (nowSec : ℝ) (p : Pose) (kp : Keypoint)
    (hp : pose = some p) (hmem : kp ∈ p.keypoints)
    (hname : kp.name = l.jsName) (hscore : 0.3 ≤ kp.score)
    (huniq : nameUnique pose l.jsName) :
    ((getStableKeypoint g pose l nowSec 0.3).2.get l =
        some ⟨kp.x, kp.y, kp.score⟩) ∧
    ((getStableKeypoint g pose l nowSec 0.3).2.timestamp = nowSec) ∧
    (∀ l' : Landmark, l' ≠ l →
      (getStableKeypoint g pose l nowSec 0.3).2.get l' = g.get l') ∧
    (∀ l' : Landmark, l' ≠ l → ∀ c, g.get l' = some c →
      ∀ (pose' : Option Pose) (now' : ℝ),
        getKeypoint pose' l'.jsName 0.3 = none →
        now' - nowSec ≤ MAX_GAP_SEC →
        (getStableKeypoint (getStableKeypoint g pose l nowSec 0.3).2 pose' l'
          now' 0.3).1 = (some c : Option StoredKP)) := by
  have hhit := getStableKeypoint_hit g pose l nowSec kp
    (getKeypoint_eq_some pose l.jsName p kp hp hmem hname hscore huniq)
  rw [hhit]
  refine ⟨LastGood.get_setT_self g l ⟨kp.x, kp.y, kp.score⟩ nowSec,
    LastGood.timestamp_setT g l ⟨kp.x, kp.y, kp.score⟩ nowSec,
    fun l' hne => LastGood.get_setT_ne g l l' ⟨kp.x, kp.y, kp.score⟩ nowSec hne,
    ?_⟩
  intro l' hne c hc pose' now' hmiss hgap
  rw [getStableKeypoint_miss _ pose' l' now' hmiss]
  have hget : ({ g.set l ⟨kp.x, kp.y, kp.score⟩ with
      timestamp := nowSec } : LastGood).get l' = some c := by
    rw [LastGood.get_setT_ne g l l' ⟨kp.x, kp.y, kp.score⟩ nowSec hne, hc]
  simp only [hget]
  rw [if_pos hgap]

/-- Concrete instance of `C6_shared_timestamp_coupling`: a fresh right-hip
observation at time 1 lets a right-knee cache entry last observed at time
0 still resolve at time 1.2 (1.2 seconds after its own observation, but
only 0.2 seconds after the shared timestamp refresh). -/
theorem C6_shared_timestamp_coupling_witness :
    (getStableKeypoint
        (getStableKeypoint ⟨none, some ⟨5, 6, 0.5⟩, none, 0⟩
          (some ⟨[⟨"right_hip", 1, 2, 0.9⟩]⟩) Landmark.right_hip 1 0.3).2
        none Landmark.right_knee 1.2 0.3).1 =
      (some ⟨5, 6, 0.5⟩ : Option StoredKP) := by
  have huniq : nameUnique (some ⟨[⟨"right_hip", 1, 2, 0.9⟩]⟩)
      Landmark.right_hip.jsName := by
    intro p hp k1 hk1 k2 hk2 h1 h2
    obtain rfl : (⟨[⟨"right_hip", 1, 2, 0.9⟩]⟩ : Pose) = p := by
      injection hp
    simp only [List.mem_singleton] at hk1 hk2
    rw [hk1, hk2]
  exact (C6_shared_timestamp_coupling ⟨none, some ⟨5, 6, 0.5⟩, none, 0⟩
      (some ⟨[⟨"right_hip", 1, 2, 0.9⟩]⟩) Landmark.right_hip 1
      ⟨[⟨"right_hip", 1, 2, 0.9⟩]⟩ ⟨"right_hip", 1, 2, 0.9⟩ rfl
      (List.mem_singleton.mpr rfl) rfl (by norm_num) huniq).2.2.2
    Landmark.right_knee (by intro hx; cases hx) ⟨5, 6, 0.5⟩ rfl none 1.2
    rfl (by norm_num [MAX_GAP_SEC])

lemma hypot_eq_zero_iff (a b : ℝ) :
    Real.sqrt (a ^ 2 + b ^ 2) = 0 ↔ a = 0 ∧ b = 0 := by
  constructor
  · intro h
    have hle : a ^ 2 + b ^ 2 ≤ 0 := Real.sqrt_eq_zero'.mp h
    constructor <;> nlinarith [sq_nonneg a, sq_nonneg b]
  · rintro ⟨rfl, rfl⟩
    simp

lemma hypot_ne_zero (a b : ℝ) (h : ¬(a = 0 ∧ b = 0)) :
    Real.sqrt (a ^ 2 + b ^ 2) ≠ 0 := by
  intro hx
  exact h (hypot_eq_zero_iff a b |>.mp hx)

/-- Claim C7: `computeKneeAngle` is absent exactly when one of the two
limb vectors has zero length (hip equal to knee, or ankle equal to knee);
a present result lies in `[0, 180]` degrees (the clamped cosine keeps the
arccosine total, so no NaN can arise in this model); the result is
invariant under swapping hip and ankle; and two collinear, oppositely
directed vectors give exactly 180 degrees. -/
theorem C7_angle_geometry (hip knee ankle : StoredKP) :
    (computeKneeAngle hip knee ankle = none ↔
      ((hip.x = knee.x ∧ hip.y = knee.y) ∨
        (ankle.x = knee.x ∧ ankle.y = knee.y))) ∧
    (∀ θ : ℝ, computeKneeAngle hip knee ankle = some θ →
      0 ≤ θ ∧ θ ≤ 180) ∧
    (computeKneeAngle hip knee ankle = computeKneeAngle ankle knee hip) ∧
    (∀ c : ℝ, 0 < c →
      ankle.x - knee.x = -(c * (hip.x - knee.x)) →
      ankle.y - knee.y = -(c * (hip.y - knee.y)) →
      ¬(hip.x = knee.x ∧ hip.y = knee.y) →
      computeKneeAngle hip knee ankle = some 180) := by
  refine ⟨?_, ?_, ?_, ?_⟩
  · unfold computeKneeAngle
    by_cases hA : Real.sqrt ((hip.x - knee.x) ^ 2 + (hip.y - knee.y) ^ 2) = 0 ∨
        Real.sqrt ((ankle.x - knee.x) ^ 2 + (ankle.y - knee.y) ^ 2) = 0
    · rw [if_pos hA]
      simp only [true_iff]
      rcases hA with h | h
      · left
        obtain ⟨hx, hy⟩ := (hypot_eq_zero_iff _ _).mp h
        exact ⟨sub_eq_zero.mp hx, sub_eq_zero.mp hy⟩
      · right
        obtain ⟨hx, hy⟩ := (hypot_eq_zero_iff _ _).mp h
        exact ⟨sub_eq_zero.mp hx, sub_eq_zero.mp hy⟩
    · rw [if_neg hA]
      simp only [reduceCtorEq, false_iff]
      rintro (⟨hx, hy⟩ | ⟨hx, hy⟩) <;> apply hA
      · left
        rw [hx, hy]
        simp
      · right
        rw [hx, hy]
        simp
  · intro θ hθ
    unfold computeKneeAngle at hθ
    by_cases hA : Real.sqrt ((hip.x - knee.x) ^ 2 + (hip.y - knee.y) ^ 2) = 0 ∨
        Real.sqrt ((ankle.x - knee.x) ^ 2 + (ankle.y - knee.y) ^ 2) = 0
    · rw [if_pos hA] at hθ
      cases hθ
    · rw [if_neg hA] at hθ
      injection hθ with hθ
      subst hθ
      constructor
      · exact div_nonneg
          (mul_nonneg (Real.arccos_nonneg _) (by norm_num)) Real.pi_pos.le
      · have h1 := Real.arccos_le_pi (min 1 (max (-1)
          (((hip.x - knee.x) * (ankle.x - knee.x) +
              (hip.y - knee.y) * (ankle.y - knee.y)) /
            (Real.sqrt ((hip.x - knee.x) ^ 2 + (hip.y - knee.y) ^ 2) *
              Real.sqrt ((ankle.x - knee.x) ^ 2 + (ankle.y - knee.y) ^ 2)))))
        rw [div_le_iff₀ Real.pi_pos]
        nlinarith [Real.pi_pos]
  · unfold computeKneeAngle
    by_cases hA : Real.sqrt ((hip.x - knee.x) ^ 2 + (hip.y - knee.y) ^ 2) = 0 ∨
        Real.sqrt ((ankle.x - knee.x) ^ 2 + (ankle.y - knee.y) ^ 2) = 0
    · rw [if_pos hA, if_pos (Or.symm hA)]
    · rw [if_neg hA, if_neg (fun hx => hA (Or.symm hx))]
      have h1 : (ankle.x - knee.x) * (hip.x - knee.x) +
          (ankle.y - knee.y) * (hip.y - knee.y) =
          (hip.x - knee.x) * (ankle.x - knee.x) +
            (hip.y - knee.y) * (ankle.y - knee.y) := by ring
      rw [h1, mul_comm
        (Real.sqrt ((ankle.x - knee.x) ^ 2 + (ankle.y - knee.y) ^ 2))
        (Real.sqrt ((hip.x - knee.x) ^ 2 + (hip.y - knee.y) ^ 2))]
  · intro c hc hvx hvy hnz
    have hnz' : ¬((hip.x - knee.x) = 0 ∧ (hip.y - knee.y) = 0) := by
      rintro ⟨hx, hy⟩
      exact hnz ⟨sub_eq_zero.mp hx, sub_eq_zero.mp hy⟩
    have hS : 0 < (hip.x - knee.x) ^ 2 + (hip.y - knee.y) ^ 2 := by
      rcases not_and_or.mp hnz' with hx | hy
      · nlinarith [sq_nonneg (hip.y - knee.y), sq_pos_of_ne_zero hx]
      · nlinarith [sq_nonneg (hip.x - knee.x), sq_pos_of_ne_zero hy]
    have hS2 : (ankle.x - knee.x) ^ 2 + (ankle.y - knee.y) ^ 2 =
        c ^ 2 * ((hip.x - knee.x) ^ 2 + (hip.y - knee.y) ^ 2) := by
      rw [hvx, hvy]
      ring
    have hsq2 : Real.sqrt ((ankle.x - knee.x) ^ 2 + (ankle.y - knee.y) ^ 2) =
        c * Real.sqrt ((hip.x - knee.x) ^ 2 + (hip.y - knee.y) ^ 2) := by
      rw [hS2, Real.sqrt_mul (sq_nonneg c), Real.sqrt_sq hc.le]
    have hsq1_pos : 0 < Real.sqrt ((hip.x - knee.x) ^ 2 + (hip.y - knee.y) ^ 2) :=
      Real.sqrt_pos.mpr hS
    have hdot : (hip.x - knee.x) * (ankle.x - knee.x) +
        (hip.y - knee.y) * (ankle.y - knee.y) =
        -(c * ((hip.x - knee.x) ^ 2 + (hip.y - knee.y) ^ 2)) := by
      rw [hvx, hvy]
      ring
    have hA : ¬(Real.sqrt ((hip.x - knee.x) ^ 2 + (hip.y - knee.y) ^ 2) = 0 ∨
        Real.sqrt ((ankle.x - knee.x) ^ 2 + (ankle.y - knee.y) ^ 2) = 0) := by
      rintro (h | h)
      · exact (ne_of_gt hsq1_pos) h
      · rw [hsq2] at h
        rcases mul_eq_zero.mp h with h0 | h0
        · exact (ne_of_gt hc) h0
        · exact (ne_of_gt hsq1_pos) h0
    unfold computeKneeAngle
    rw [if_neg hA]
    have hcosneg : ((hip.x - knee.x) * (ankle.x - knee.x) +
        (hip.y - knee.y) * (ankle.y - knee.y)) /
        (Real.sqrt ((hip.x - knee.x) ^ 2 + (hip.y - knee.y) ^ 2) *
          Real.sqrt ((ankle.x - knee.x) ^ 2 + (ankle.y - knee.y) ^ 2)) =
        -1 := by
      rw [hdot, hsq2]
      rw [show Real.sqrt ((hip.x - knee.x) ^ 2 + (hip.y - knee.y) ^ 2) *
          (c * Real.sqrt ((hip.x - knee.x) ^ 2 + (hip.y - knee.y) ^ 2)) =
          c * (Real.sqrt ((hip.x - knee.x) ^ 2 + (hip.y - knee.y) ^ 2) *
            Real.sqrt ((hip.x - knee.x) ^ 2 + (hip.y - knee.y) ^ 2)) by ring]
      rw [Real.mul_self_sqrt hS.le]
      rw [neg_div, div_self (ne_of_gt (mul_pos hc hS))]
    rw [hcosneg]
    rw [show max (-1 : ℝ) (-1 : ℝ) = (-1 : ℝ) from max_self _]
    rw [show min (1 : ℝ) (-1 : ℝ) = (-1 : ℝ) from
      min_eq_right (by norm_num)]
    rw [Real.arccos_neg_one]
    rw [show Real.pi * 180 / Real.pi = 180 by
      field_simp]

/-- Concrete instance of `C7_angle_geometry`: hip at (0, 1), knee at the
origin and ankle at (0, -1) — collinear and oppositely directed — give
exactly 180 degrees. -/
theorem C7_angle_geometry_witness :
    computeKneeAngle ⟨0, 1, 1⟩ ⟨0, 0, 1⟩ ⟨0, -1, 1⟩ = some 180 :=
  (C7_angle_geometry ⟨0, 1, 1⟩ ⟨0, 0, 1⟩ ⟨0, -1, 1⟩).2.2.2 1 (by norm_num)
    (by norm_num) (by norm_num) (by norm_num)
